import Mathlib

/-!
Verification of the multi-phase video-commentary pipeline
(`backend/analyze_hand.py` and the manifest lookup of `backend/app.py`).

The Python code is shallowly embedded: the four JSON stores become a
`Stores` record of lists, every external effect (media probe, frame
extraction, the vision/classification/generation/refinement capability,
`json.loads` on model output, text-to-speech synthesis and re-probing the
synthesized clip) becomes a field of an `Env` record of oracle functions,
and `analyze_video` becomes a pure function from `Env`, its arguments and
the loaded `Stores` to a `RunResult` describing what the invocation
returns and what ends up persisted.  Seconds are modelled as `ℚ`.
-/

/-- Frame analysis record `{frame, timestamp, analysis}` produced per sampled frame
(`analyze_one` in `analyze_hand.py`). -/
structure FrameAnalysis where
  frame : ℕ
  timestamp : ℚ
  analysis : String
deriving DecidableEq

/-- Commentation decision record `{timestamp, frame, commentate}` parsed from the
classifier response (phase 2a).  `commentate` is the raw string field,
expected to be `"YES"` or `"NO"`. -/
structure Decision where
  timestamp : ℚ
  frame : ℤ
  commentate : String
deriving DecidableEq

/-- Speech record `{timestamp, text}` (phase 2b / 2c). -/
structure Speech where
  timestamp : ℚ
  text : String
deriving DecidableEq

/-- Manifest record `{filename, start, end}` (phase 3).  `end` is a Lean
keyword, so the field is called `end_`. -/
structure VoiceEntry where
  filename : String
  start : ℚ
  end_ : ℚ
deriving DecidableEq

/-- The four persisted JSON stores of the pipeline
(`video_analysis.json`, `commentate_decisions.json`, `speech.json`,
`manifest.json`), loaded at invocation start. -/
structure Stores where
  raw_results : List FrameAnalysis
  comments : List Decision
  speeches : List Speech
  voice_entries : List VoiceEntry
deriving DecidableEq

/-- External world of one `analyze_video` invocation: every effectful
call the Python code makes, as a deterministic oracle. -/
structure Env where
  /-- duration of the source video as reported by `ffmpeg.probe`. -/
  full_duration : ℚ
  /-- frame extraction at a timestamp: `some` PNG bytes, or `none` when
  ffmpeg produced empty stdout (`if not out`). -/
  extract : ℚ → Option String
  /-- the stderr text captured alongside a failed extraction. -/
  err : ℚ → String
  /-- Pillow crop of the extracted image to the bottom 30 percent. -/
  crop : String → String
  /-- vision capability: analysis text for a cropped image (the prompt
  and temperature are fixed within one invocation). -/
  analyze : String → String
  /-- classification capability response text; the prompt is a function
  of the accumulated analysis list. -/
  classifyResp : List FrameAnalysis → String
  /-- Model of `json.loads` applied to the bracket-delimited substring of the
  classifier response; `none` models a raised `JSONDecodeError`. -/
  jsonLoadsDecisions : List Char → Option (List Decision)
  /-- speech generation capability: response text given the speech
  history, the analysis list and the decision timestamp. -/
  speechResp : List Speech → List FrameAnalysis → ℚ → String
  /-- refinement capability: response text given analyses, decisions and
  current speeches. -/
  refineResp : List FrameAnalysis → List Decision → List Speech → String
  /-- Model of `json.loads` applied to the bracket-delimited substring of the
  refinement response; `none` models a raised exception (caught). -/
  jsonLoadsSpeeches : List Char → Option (List Speech)
  /-- duration of the synthesized clip for a speech entry as re-probed
  from the written mp3 (a function of the entry's timestamp, which names
  the file, and its text, which determines the audio). -/
  clipDur : ℚ → String → ℚ
  /-- Python string rendering of a timestamp, used in the mp3 filename
  `f"{timestamp}.mp3"`. -/
  showTs : ℚ → String

/-- Result of one invocation: `ok` carries the value returned to the
caller and the finally persisted stores; `fatal` carries the error
message of the uncaught exception and the stores persisted up to that
point. -/
inductive RunResult where
  | ok (ret : List FrameAnalysis) (st : Stores)
  | fatal (msg : String) (st : Stores)
deriving DecidableEq

/-! ### Python string helpers -/

/-- Python `str.strip()` on a character list. -/
def pyStrip (l : List Char) : List Char :=
  ((l.dropWhile Char.isWhitespace).reverse.dropWhile Char.isWhitespace).reverse

/-- Python `str.find(c)`: index of the first occurrence, `-1` if absent. -/
def pyFind (l : List Char) (c : Char) : ℤ :=
  match l.findIdx? (fun x => x == c) with
  | some i => (i : ℤ)
  | none => -1

/-- Python `str.rfind(c)`: index of the last occurrence, `-1` if absent. -/
def pyRfind (l : List Char) (c : Char) : ℤ :=
  match l.reverse.findIdx? (fun x => x == c) with
  | some i => ((l.length - 1 - i : ℕ) : ℤ)
  | none => -1

/-- Python slice `l[a:b]` for `0 ≤ a ≤ b`. -/
def pySlice (l : List Char) (a b : ℕ) : List Char :=
  (l.take b).drop a

/-- Python `math.ceil` on an exact rational. -/
def mathCeil (q : ℚ) : ℤ := -((-q).floor)

/-- Python `round(x, 2)` (round half to even) on an exact rational. -/
def roundHalfEven (q : ℚ) : ℤ :=
  let f := q.floor
  if q - f < 1/2 then f
  else if 1/2 < q - f then f + 1
  else if f % 2 = 0 then f else f + 1

/-- Python `round(ts, 2)` as used for the `timestamp` field of a frame record. -/
def round2 (q : ℚ) : ℚ := (roundHalfEven (q * 100) : ℚ) / 100

/-! ### Phase 1: sampler and parallel analysis coordinator -/

/-- Computation of `process_duration`: `min(duration, full_duration - start_time)` when a
duration is given, else `full_duration - start_time`. -/
def processDuration (full_duration start_time : ℚ) (duration : Option ℚ) : ℚ :=
  match duration with
  | none => full_duration - start_time
  | some d => min d (full_duration - start_time)

/-- Frame count `num_frames = math.ceil(process_duration / interval_secs)` (as a
Python `int` fed to `range`, so negatives act as zero). -/
def numFrames (process_duration interval_secs : ℚ) : ℕ :=
  (mathCeil (process_duration / interval_secs)).toNat

/-- The `(i, min(start_time + i*interval_secs, start_time + process_duration))`
task list built for the worker pool. -/
def frame_tasks (start_time process_duration interval_secs : ℚ) (num_frames : ℕ) :
    List (ℕ × ℚ) :=
  (List.range num_frames).map fun i =>
    (i, min (start_time + i * interval_secs) (start_time + process_duration))

/-- One worker: extract the frame at `ts`; on empty output record the
ffmpeg error text, otherwise crop and send to the vision capability. -/
def analyze_one (env : Env) (args : ℕ × ℚ) : FrameAnalysis :=
  let i := args.1
  let ts := args.2
  match env.extract ts with
  | none =>
      { frame := i, timestamp := round2 ts,
        analysis := "ffmpeg error: " ++ env.err ts }
  | some out =>
      { frame := i, timestamp := round2 ts,
        analysis := (pyStrip (env.analyze (env.crop out)).toList).asString }

/-- Model of `executor.map(analyze_one, frame_tasks)`: results are collected in
task-submission order regardless of completion order. -/
def runCoordinator (env : Env) (tasks : List (ℕ × ℚ)) : List FrameAnalysis :=
  tasks.map (analyze_one env)

/-- The new analysis records produced by one invocation's chunk. -/
def chunkResults (env : Env) (interval_secs start_time : ℚ) (duration : Option ℚ) :
    List FrameAnalysis :=
  let pd := processDuration env.full_duration start_time duration
  runCoordinator env (frame_tasks start_time pd interval_secs (numFrames pd interval_secs))

/-! ### Phase 2a: decision merge -/

/-- Merge newly classified decisions into the existing sequence: the set
of existing timestamps is computed once, then each new decision whose
timestamp is not in that set is appended. -/
def mergeComments (comments new_comments : List Decision) : List Decision :=
  let existing_timestamps := comments.map (fun c => c.timestamp)
  new_comments.foldl
    (fun acc comment =>
      if comment.timestamp ∈ existing_timestamps then acc else acc ++ [comment])
    comments

/-! ### Phase 2b: sequential speech generation -/

/-- The sequential generation loop: each decision produces one speech
entry, appended to the history before the next call is issued. -/
def genSpeeches (env : Env) (raw_results : List FrameAnalysis)
    (comments_to_process : List Decision) (speeches : List Speech) : List Speech :=
  comments_to_process.foldl
    (fun sp entry =>
      sp ++ [{ timestamp := entry.timestamp,
               text := env.speechResp sp raw_results entry.timestamp }])
    speeches

/-- The YES decisions whose timestamp has no existing speech entry
(`comments_to_process` in the source; the set of speech timestamps is
computed once, before generation starts). -/
def commentsToProcess (comments : List Decision) (speeches : List Speech) :
    List Decision :=
  let speech_timestamps := speeches.map (fun s => s.timestamp)
  comments.filter fun c =>
    decide (c.commentate = "YES" ∧ c.timestamp ∉ speech_timestamps)

/-! ### Phase 2c: speech refinement -/

/-- The stripped refinement response text. -/
def refinedTextOf (env : Env) (raw_results : List FrameAnalysis)
    (comments : List Decision) (speeches : List Speech) : List Char :=
  pyStrip (env.refineResp raw_results comments speeches).toList

/-- Refinement: runs only when at least one speech exists; locates the
first `[` and last `]`; on both present and a successful parse the
speech list is replaced wholesale; otherwise (bracket absent, or parse
exception caught) the existing list is kept. -/
def refineSpeeches (env : Env) (raw_results : List FrameAnalysis)
    (comments : List Decision) (speeches : List Speech) : List Speech :=
  if speeches = [] then speeches
  else
    let refined_text := refinedTextOf env raw_results comments speeches
    let s := pyFind refined_text '['
    let e := pyRfind refined_text ']'
    if 0 ≤ s ∧ 0 ≤ e then
      match env.jsonLoadsSpeeches (pySlice refined_text s.toNat (e.toNat + 1)) with
      | some refined_speeches => refined_speeches
      | none => speeches
    else speeches

/-! ### Phase 3: audio synthesis and manifest building -/

/-- Whether some manifest record's `start` equals the speech timestamp
(`any(v["start"] == s["timestamp"] for v in voice_entries)`). -/
def coveredBy (voice_entries : List VoiceEntry) (s : Speech) : Bool :=
  voice_entries.any fun v => decide (v.start = s.timestamp)

/-- The manifest record appended for a synthesized speech entry:
`{filename, start = timestamp, end = timestamp + probed clip duration}`. -/
def mkVoice (env : Env) (s : Speech) : VoiceEntry :=
  { filename := env.showTs s.timestamp ++ ".mp3",
    start := s.timestamp,
    end_ := s.timestamp + env.clipDur s.timestamp s.text }

/-- Synthesis phase: the entries to process are selected once against the
initial manifest, then each produces a clip and appends its record. -/
def synthesize (env : Env) (speeches : List Speech)
    (voice_entries : List VoiceEntry) : List VoiceEntry :=
  let toProcess := speeches.filter fun s => !(coveredBy voice_entries s)
  toProcess.foldl (fun ve entry => ve ++ [mkVoice env entry]) voice_entries

/-! ### The pipeline -/

/-- Phases 2a–3, run after the classifier response has been parsed into
`new_comments`; returns the finally persisted stores. -/
def runPipeline (env : Env) (raw_results : List FrameAnalysis)
    (new_comments : List Decision) (st : Stores) : Stores :=
  let comments := mergeComments st.comments new_comments
  let comments_to_process := commentsToProcess comments st.speeches
  let speeches := genSpeeches env raw_results comments_to_process st.speeches
  let speeches2 := refineSpeeches env raw_results comments speeches
  let voice_entries := synthesize env speeches2 st.voice_entries
  { raw_results := raw_results, comments := comments,
    speeches := speeches2, voice_entries := voice_entries }

/-- The stripped classifier response text for an accumulated analysis list. -/
def classifyTextOf (env : Env) (raw_results : List FrameAnalysis) : List Char :=
  pyStrip (env.classifyResp raw_results).toList

/-- Function `analyze_video(video_path, prompt, interval_secs, max_workers,
start_time, duration)`: the whole invocation.  Returns `ok` with the
value `return raw_results` hands back and the persisted stores, or
`fatal` when an uncaught exception escapes (classifier parse failure),
with the stores persisted before the exception. -/
def analyze_video (env : Env) (interval_secs start_time : ℚ)
    (duration : Option ℚ) (st : Stores) : RunResult :=
  let full_duration := env.full_duration
  if start_time ≥ full_duration then
    RunResult.ok [] st
  else
    let new_results := chunkResults env interval_secs start_time duration
    let raw_results := st.raw_results ++ new_results
    let st1 : Stores := { st with raw_results := raw_results }
    let raw_text := classifyTextOf env raw_results
    let s := pyFind raw_text '['
    let e := pyRfind raw_text ']'
    if s = -1 ∨ e = -1 then
      RunResult.fatal
        ("Failed to parse commentation JSON from LLM response:\n" ++ raw_text.asString) st1
    else
      match env.jsonLoadsDecisions (pySlice raw_text s.toNat (e.toNat + 1)) with
      | none => RunResult.fatal "json.loads: invalid JSON" st1
      | some new_comments => RunResult.ok raw_results (runPipeline env raw_results new_comments st1)

/-! ### Manifest lookup (`backend/app.py`) -/

/-- Lookup `get_audio_entry(t)`: first manifest entry with `start ≤ t < end`. -/
def get_audio_entry (manifest : List VoiceEntry) (t : ℚ) : Option VoiceEntry :=
  manifest.find? fun e => decide (e.start ≤ t ∧ t < e.end_)

/-- Endpoint `/next-audio`: on a match, the filename and `offset = t - start`. -/
def next_audio (manifest : List VoiceEntry) (t : ℚ) : Option (String × ℚ) :=
  match get_audio_entry manifest t with
  | none => none
  | some entry => some (entry.filename, t - entry.start)

/-! ### Generic helper definitions used in statements and proofs -/

/-- The value `analyze_video` hands back to its caller, when it returns. -/
def retOf : RunResult → Option (List FrameAnalysis)
  | RunResult.ok r _ => some r
  | RunResult.fatal _ _ => none

/-- The batch of speech entries produced by the sequential generation
loop, starting from history `sp`. -/
def genBatch (env : Env) (rr : List FrameAnalysis) :
    List Speech → List Decision → List Speech
  | _, [] => []
  | sp, c :: tl =>
      let entry : Speech := { timestamp := c.timestamp, text := env.speechResp sp rr c.timestamp }
      entry :: genBatch env rr (sp ++ [entry]) tl

/-! Concrete environments and stores used by witnesses and counterexamples. -/

def manifestC3 : List VoiceEntry :=
  [{ filename := "a.mp3", start := 0, end_ := 2 },
   { filename := "b.mp3", start := 1, end_ := 3 }]

def envC4 : Env :=
  { full_duration := 10, extract := fun _ => none, err := fun _ => "e",
    crop := id, analyze := id, classifyResp := fun _ => "[]",
    jsonLoadsDecisions := fun _ => none,
    speechResp := fun _ _ _ => "", refineResp := fun _ _ _ => "",
    jsonLoadsSpeeches := fun _ => none,
    clipDur := fun _ _ => 2, showTs := fun _ => "1" }

def speechesC4 : List Speech := [{ timestamp := 1, text := "hi" }]

def decA : Decision := { timestamp := 1, frame := 0, commentate := "YES" }

def decB : Decision := { timestamp := 1, frame := 1, commentate := "NO" }

def decC : Decision := { timestamp := 2, frame := 1, commentate := "NO" }

def envC8 : Env :=
  { full_duration := 10, extract := fun _ => none, err := fun _ => "boom",
    crop := id, analyze := id, classifyResp := fun _ => "[]",
    jsonLoadsDecisions := fun _ => none,
    speechResp := fun _ _ _ => "", refineResp := fun _ _ _ => "",
    jsonLoadsSpeeches := fun _ => none,
    clipDur := fun _ _ => 1, showTs := fun _ => "0" }

def envC5 : Env :=
  { full_duration := 10, extract := fun _ => none, err := fun _ => "e",
    crop := id, analyze := id, classifyResp := fun _ => "[]",
    jsonLoadsDecisions := fun _ => none,
    speechResp := fun _ _ _ => "talk",
    refineResp := fun _ _ _ => "no brackets here",
    jsonLoadsSpeeches := fun _ => none,
    clipDur := fun _ _ => 1, showTs := fun _ => "1" }

def stC5 : Stores :=
  { raw_results := [], comments := [],
    speeches := [{ timestamp := 1, text := "x" }], voice_entries := [] }

def envC9 : Env :=
  { full_duration := 10, extract := fun _ => none, err := fun _ => "e",
    crop := id, analyze := id, classifyResp := fun _ => "[]",
    jsonLoadsDecisions := fun _ => none,
    speechResp := fun _ _ _ => "big raise", refineResp := fun _ _ _ => "",
    jsonLoadsSpeeches := fun _ => none,
    clipDur := fun _ _ => 1, showTs := fun _ => "1" }

def envC10 : Env :=
  { full_duration := 10, extract := fun _ => none, err := fun _ => "e",
    crop := id, analyze := id, classifyResp := fun _ => "[]",
    jsonLoadsDecisions := fun _ => none,
    speechResp := fun _ _ _ => "talk",
    refineResp := fun _ _ _ => "[]",
    jsonLoadsSpeeches := fun l => if l = "[]".toList then some [] else none,
    clipDur := fun _ _ => 1, showTs := fun _ => "1" }

def envC6 : Env :=
  { full_duration := 10, extract := fun _ => none, err := fun _ => "e",
    crop := id, analyze := id, classifyResp := fun _ => "no json at all",
    jsonLoadsDecisions := fun _ => none,
    speechResp := fun _ _ _ => "", refineResp := fun _ _ _ => "",
    jsonLoadsSpeeches := fun _ => none,
    clipDur := fun _ _ => 1, showTs := fun _ => "0" }

def stEmpty : Stores :=
  { raw_results := [], comments := [], speeches := [], voice_entries := [] }

def envC1 : Env :=
  { full_duration := 10, extract := fun _ => none, err := fun _ => "e",
    crop := id, analyze := id, classifyResp := fun _ => "[]",
    jsonLoadsDecisions := fun l => if l = "[]".toList then some [] else none,
    speechResp := fun _ _ _ => "", refineResp := fun _ _ _ => "",
    jsonLoadsSpeeches := fun _ => none,
    clipDur := fun _ _ => 1, showTs := fun _ => "0" }

def stC1 : Stores :=
  { raw_results := [{ frame := 0, timestamp := 0, analysis := "old" }],
    comments := [], speeches := [], voice_entries := [] }

/-! ### Helper lemmas -/

theorem mathCeil_eq_ceil (q : ℚ) : mathCeil q = ⌈q⌉ := by
  show -((-q).floor) = ⌈q⌉
  rw [show ((-q).floor) = ⌊-q⌋ from rfl, Int.floor_neg, neg_neg]

theorem foldl_append_singleton {α β : Type} (f : α → β) :
    ∀ (l : List α) (init : List β),
      l.foldl (fun acc x => acc ++ [f x]) init = init ++ l.map f := by
  intro l
  induction l with
  | nil => intro init; simp
  | cons a tl ih => intro init; simp [ih]

theorem foldl_cond_append {α : Type} (p : α → Prop) [DecidablePred p] :
    ∀ (l acc : List α),
      l.foldl (fun a x => if p x then a else a ++ [x]) acc
        = acc ++ l.filter (fun x => !(decide (p x))) := by
  intro l
  induction l with
  | nil => intro acc; simp
  | cons a tl ih =>
      intro acc
      by_cases h : p a <;> simp [h, ih, List.filter_cons]

theorem mergeComments_eq (comments new_comments : List Decision) :
    mergeComments comments new_comments
      = comments ++ new_comments.filter
          (fun c => !(decide (c.timestamp ∈ comments.map (fun d => d.timestamp)))) := by
  show new_comments.foldl _ comments = _
  exact foldl_cond_append (fun c => c.timestamp ∈ comments.map (fun d => d.timestamp))
    new_comments comments

theorem synthesize_eq (env : Env) (speeches : List Speech) (voice_entries : List VoiceEntry) :
    synthesize env speeches voice_entries
      = voice_entries
          ++ (speeches.filter fun s => !(coveredBy voice_entries s)).map (mkVoice env) := by
  show (speeches.filter _).foldl _ voice_entries = _
  exact foldl_append_singleton (mkVoice env) _ voice_entries

theorem genSpeeches_eq_genBatch (env : Env) (rr : List FrameAnalysis) :
    ∀ (l : List Decision) (sp : List Speech),
      genSpeeches env rr l sp = sp ++ genBatch env rr sp l := by
  intro l
  induction l with
  | nil => intro sp; simp [genSpeeches, genBatch]
  | cons c tl ih =>
      intro sp
      show genSpeeches env rr tl (sp ++ [_]) = _
      rw [ih]
      simp [genBatch]

theorem genBatch_length (env : Env) (rr : List FrameAnalysis) :
    ∀ (l : List Decision) (sp : List Speech), (genBatch env rr sp l).length = l.length := by
  intro l
  induction l with
  | nil => intro sp; simp [genBatch]
  | cons c tl ih => intro sp; simp [genBatch, ih]

theorem genBatch_get (env : Env) (rr : List FrameAnalysis) :
    ∀ (l : List Decision) (sp : List Speech) (i : ℕ) (c : Decision), l[i]? = some c →
      (sp ++ genBatch env rr sp l)[sp.length + i]?
        = some { timestamp := c.timestamp,
                 text := env.speechResp (sp ++ (genBatch env rr sp l).take i) rr c.timestamp } := by
  intro l
  induction l with
  | nil => intro sp i c h; simp at h
  | cons c' tl ih =>
      intro sp i c h
      match i with
      | 0 =>
          simp only [List.getElem?_cons_zero, Option.some.injEq] at h
          subst h
          have hidx : (sp ++ genBatch env rr sp (c' :: tl))[sp.length + 0]?
              = (genBatch env rr sp (c' :: tl))[0]? := by
            simp [List.getElem?_append_right]
          rw [hidx]
          simp [genBatch]
      | Nat.succ j =>
          simp only [List.getElem?_cons_succ] at h
          set e : Speech :=
            { timestamp := c'.timestamp, text := env.speechResp sp rr c'.timestamp } with he
          have hgb : genBatch env rr sp (c' :: tl) = e :: genBatch env rr (sp ++ [e]) tl := rfl
          have key := ih (sp ++ [e]) j c h
          rw [hgb]
          rw [show sp ++ e :: genBatch env rr (sp ++ [e]) tl
              = (sp ++ [e]) ++ genBatch env rr (sp ++ [e]) tl by simp]
          rw [show sp.length + (j + 1) = (sp ++ [e]).length + j by simp; omega]
          rw [show (e :: genBatch env rr (sp ++ [e]) tl).take (j + 1)
              = e :: (genBatch env rr (sp ++ [e]) tl).take j from rfl]
          rw [show sp ++ e :: (genBatch env rr (sp ++ [e]) tl).take j
              = (sp ++ [e]) ++ (genBatch env rr (sp ++ [e]) tl).take j by simp]
          exact key

theorem find?_first {α : Type} (p : α → Bool) :
    ∀ (l : List α) (e : α), l.find? p = some e →
      ∃ pre post, l = pre ++ e :: post ∧ p e = true ∧ ∀ x ∈ pre, p x = false := by
  intro l
  induction l with
  | nil => intro e h; simp at h
  | cons a tl ih =>
      intro e h
      by_cases hp : p a = true
      · rw [List.find?_cons_of_pos _ hp] at h
        cases h
        exact ⟨[], tl, rfl, hp, by simp⟩
      · rw [List.find?_cons_of_neg _ (by simpa using hp)] at h
        obtain ⟨pre, post, hl, hpe, hall⟩ := ih e h
        refine ⟨a :: pre, post, by rw [hl]; rfl, hpe, ?_⟩
        intro x hx
        rcases List.mem_cons.mp hx with rfl | hx'
        · simpa using hp
        · exact hall x hx'

/-! ### The claims -/

/-- C2: for `start_time ≥ 0`, `interval_secs > 0` and
`process_duration = min(duration, total_duration − start_time)` (or
`total_duration − start_time` when the duration is absent) with
`0 < process_duration`, the sampler produces exactly
`num_frames = ⌈process_duration / interval_secs⌉` tasks, and the `i`-th
task's timestamp is
`min(start_time + i·interval_secs, start_time + process_duration)`. -/
theorem claim_C2 (full_duration start_time interval_secs : ℚ) (duration : Option ℚ)
    (h0 : 0 ≤ start_time) (hi : 0 < interval_secs)
    (hpd : 0 < processDuration full_duration start_time duration) :
    ((numFrames (processDuration full_duration start_time duration) interval_secs : ℤ)
        = ⌈processDuration full_duration start_time duration / interval_secs⌉)
  ∧ (frame_tasks start_time (processDuration full_duration start_time duration) interval_secs
        (numFrames (processDuration full_duration start_time duration) interval_secs)).length
      = numFrames (processDuration full_duration start_time duration) interval_secs
  ∧ ∀ i, i < numFrames (processDuration full_duration start_time duration) interval_secs →
      (frame_tasks start_time (processDuration full_duration start_time duration) interval_secs
          (numFrames (processDuration full_duration start_time duration) interval_secs))[i]?
        = some (i, min (start_time + i * interval_secs)
            (start_time + processDuration full_duration start_time duration)) := by
  set pd := processDuration full_duration start_time duration
  have hceil : (0:ℤ) < ⌈pd / interval_secs⌉ := by
    rw [Int.ceil_pos]
    exact div_pos hpd hi
  have hnum : (numFrames pd interval_secs : ℤ) = ⌈pd / interval_secs⌉ := by
    rw [numFrames, mathCeil_eq_ceil, Int.toNat_of_nonneg (le_of_lt hceil)]
  refine ⟨hnum, by simp [frame_tasks], ?_⟩
  intro i hi'
  simp [frame_tasks, List.getElem?_range, hi']

/-- Witness for C2: a 5-second video sampled from 0 at 1-second
intervals yields exactly 5 tasks. -/
theorem claim_C2_witness :
    (frame_tasks 0 (processDuration 5 0 none) 1 (numFrames (processDuration 5 0 none) 1)).length
      = numFrames (processDuration 5 0 none) 1 :=
  (claim_C2 5 0 1 none (by norm_num) (by norm_num) (by norm_num [processDuration])).2.1

/-- C3: `lookup(t)` matches iff some manifest entry satisfies
`start ≤ t < end`; a match is the first such entry in store order, and
the reported offset is `t − start`; outside every interval there is no
match. -/
theorem claim_C3 (manifest : List VoiceEntry) (t : ℚ) :
    ((get_audio_entry manifest t).isSome ↔ ∃ e ∈ manifest, e.start ≤ t ∧ t < e.end_)
  ∧ (∀ e, get_audio_entry manifest t = some e →
      (e.start ≤ t ∧ t < e.end_)
      ∧ (∃ pre post, manifest = pre ++ e :: post ∧ ∀ x ∈ pre, ¬(x.start ≤ t ∧ t < x.end_))
      ∧ next_audio manifest t = some (e.filename, t - e.start))
  ∧ (get_audio_entry manifest t = none → ∀ e ∈ manifest, ¬(e.start ≤ t ∧ t < e.end_)) := by
  refine ⟨?_, ?_, ?_⟩
  · rw [get_audio_entry, List.find?_isSome]
    simp
  · intro e h
    have hp := List.find?_some h
    refine ⟨by simpa using hp, ?_, ?_⟩
    · obtain ⟨pre, post, hl, _, hall⟩ := find?_first _ manifest e h
      refine ⟨pre, post, hl, ?_⟩
      intro x hx
      simpa using hall x hx
    · rw [next_audio, h]
  · intro h e he
    have := List.find?_eq_none.mp h e he
    simpa using this

/-- Witness for C3: at `t = 1` both entries of `manifestC3` contain `t`,
and lookup returns the first one with offset `1 - 0`. -/
theorem claim_C3_witness :
    next_audio manifestC3 1 = some ("a.mp3", 1 - 0) :=
  ((claim_C3 manifestC3 1).2.1 { filename := "a.mp3", start := 0, end_ := 2 }
    (by with_unfolding_all decide)).2.2

/-- C4: covered timestamps are skipped by the synthesis phase, the phase
is idempotent for a fixed speech set, and every newly appended manifest
record has `start` equal to the speech timestamp and
`end = start + re-probed clip duration`. -/
theorem claim_C4 (env : Env) (speeches : List Speech) (voice_entries : List VoiceEntry) :
    synthesize env speeches voice_entries
      = voice_entries
          ++ (speeches.filter fun s => !(coveredBy voice_entries s)).map (mkVoice env)
  ∧ synthesize env speeches (synthesize env speeches voice_entries)
      = synthesize env speeches voice_entries
  ∧ ∀ v ∈ (synthesize env speeches voice_entries).drop voice_entries.length,
      ∃ s ∈ speeches, coveredBy voice_entries s = false
        ∧ v = mkVoice env s ∧ v.start = s.timestamp
        ∧ v.end_ = s.timestamp + env.clipDur s.timestamp s.text := by
  have h1 := synthesize_eq env speeches voice_entries
  have hcov : ∀ s ∈ speeches, coveredBy (synthesize env speeches voice_entries) s = true := by
    intro s hs
    rw [h1, coveredBy, List.any_append]
    by_cases h : coveredBy voice_entries s = true
    · rw [coveredBy] at h
      rw [h, Bool.true_or]
    · have hsf : s ∈ speeches.filter (fun s => !(coveredBy voice_entries s)) :=
        List.mem_filter.mpr ⟨hs, by simp [h]⟩
      have hmem : mkVoice env s
          ∈ (speeches.filter fun s => !(coveredBy voice_entries s)).map (mkVoice env) :=
        List.mem_map_of_mem _ hsf
      simp only [Bool.or_eq_true]
      right
      rw [List.any_eq_true]
      exact ⟨mkVoice env s, hmem, by simp [mkVoice]⟩
  refine ⟨h1, ?_, ?_⟩
  · have hfilter :
        speeches.filter (fun s => !(coveredBy (synthesize env speeches voice_entries) s)) = [] := by
      rw [List.filter_eq_nil_iff]
      intro s hs
      simp [hcov s hs]
    rw [synthesize_eq env speeches (synthesize env speeches voice_entries), hfilter]
    simp
  · intro v hv
    rw [h1, List.drop_left] at hv
    obtain ⟨s, hsf, rfl⟩ := List.mem_map.mp hv
    obtain ⟨hs, hcb⟩ := List.mem_filter.mp hsf
    exact ⟨s, hs, by simpa using hcb, rfl, rfl, rfl⟩

/-- Witness for C4: synthesizing `speechesC4` against an empty manifest
appends one record whose shape matches the speech entry. -/
theorem claim_C4_witness :
    ∃ s ∈ speechesC4, coveredBy [] s = false
      ∧ mkVoice envC4 { timestamp := 1, text := "hi" } = mkVoice envC4 s
      ∧ (mkVoice envC4 { timestamp := 1, text := "hi" }).start = s.timestamp
      ∧ (mkVoice envC4 { timestamp := 1, text := "hi" }).end_
          = s.timestamp + envC4.clipDur s.timestamp s.text :=
  (claim_C4 envC4 speechesC4 []).2.2 (mkVoice envC4 { timestamp := 1, text := "hi" })
    (by with_unfolding_all decide)

/-- Counterexample to C7 as stated: two newly classified decisions that
share the fresh timestamp `1` are both appended (the existing-timestamp
set is computed once, before the loop), so the merged sequence contains
two decisions with the same timestamp. -/
theorem claim_C7_counterexample :
    mergeComments [] [decA, decB] = [decA, decB]
  ∧ ¬ ((mergeComments [] [decA, decB]).map fun c => c.timestamp).Nodup := by
  with_unfolding_all decide

/-- C7 (amended): a new decision whose timestamp is already present in
the pre-existing sequence is dropped and the others are appended in
order; the merged sequence has at most one decision per timestamp
provided the pre-existing timestamps and the new batch's timestamps are
each duplicate-free. -/
theorem claim_C7 (comments new_comments : List Decision) :
    mergeComments comments new_comments
      = comments ++ new_comments.filter
          (fun c => !(decide (c.timestamp ∈ comments.map fun d => d.timestamp)))
  ∧ (((comments.map fun c => c.timestamp).Nodup) →
      ((new_comments.map fun c => c.timestamp).Nodup) →
      ((mergeComments comments new_comments).map fun c => c.timestamp).Nodup) := by
  refine ⟨mergeComments_eq comments new_comments, ?_⟩
  intro h1 h2
  rw [mergeComments_eq, List.map_append]
  refine List.Nodup.append h1 (List.Nodup.sublist (List.Sublist.map _ (List.filter_sublist _)) h2) ?_
  intro a ha hb
  obtain ⟨c, hc, rfl⟩ := List.mem_map.mp hb
  obtain ⟨hcnc, hdec⟩ := List.mem_filter.mp hc
  simp only [Bool.not_eq_true', decide_eq_false_iff_not] at hdec
  exact hdec ha

/-- Witness for C7: merging a fresh-timestamp decision into a
duplicate-free sequence keeps the timestamps duplicate-free. -/
theorem claim_C7_witness :
    ((mergeComments [decA] [decC]).map fun c => c.timestamp).Nodup :=
  (claim_C7 [decA] [decC]).2 (by with_unfolding_all decide) (by with_unfolding_all decide)

/-- C8: when extraction yields no image for task `k`, the worker records
the ffmpeg error placeholder without consulting the vision capability,
while the coordinator still produces one record per requested index in
task-submission order, each depending only on its own task. -/
theorem claim_C8 (env : Env) (tasks : List (ℕ × ℚ)) (k : ℕ) (t : ℕ × ℚ)
    (hk : tasks[k]? = some t) (hfail : env.extract t.2 = none) :
    (runCoordinator env tasks).length = tasks.length
  ∧ (∀ (j : ℕ) (u : ℕ × ℚ), tasks[j]? = some u
        → (runCoordinator env tasks)[j]? = some (analyze_one env u))
  ∧ (runCoordinator env tasks)[k]?
      = some { frame := t.1, timestamp := round2 t.2,
               analysis := "ffmpeg error: " ++ env.err t.2 }
  ∧ (∀ g, analyze_one { env with analyze := g } t = analyze_one env t) := by
  refine ⟨by simp [runCoordinator], ?_, ?_, ?_⟩
  · intro j u hu
    rw [runCoordinator, List.getElem?_map, hu]
    rfl
  · rw [runCoordinator, List.getElem?_map, hk]
    simp [analyze_one, hfail]
  · intro g
    simp [analyze_one, hfail]

/-- Witness for C8: a one-task batch whose extraction fails produces the
error-placeholder record at index 0. -/
theorem claim_C8_witness :
    (runCoordinator envC8 [(0, 0)])[0]?
      = some { frame := 0, timestamp := round2 0,
               analysis := "ffmpeg error: " ++ envC8.err 0 } :=
  (claim_C8 envC8 [(0, 0)] 0 (0, 0) (by with_unfolding_all decide) rfl).2.2.1

/-- C5: when the refinement response has no bracket pair or its
bracketed substring fails to parse, the speech sequence is left exactly
as produced by the generation phase, and the pipeline proceeds to
synthesis with that unchanged sequence (the run does not fail). -/
theorem claim_C5 (env : Env) (st : Stores) (rr : List FrameAnalysis)
    (nc cs : List Decision) (sp : List Speech)
    (hcs : cs = mergeComments st.comments nc)
    (hsp : sp = genSpeeches env rr (commentsToProcess cs st.speeches) st.speeches)
    (hfail : pyFind (refinedTextOf env rr cs sp) '[' = -1
           ∨ pyRfind (refinedTextOf env rr cs sp) ']' = -1
           ∨ env.jsonLoadsSpeeches (pySlice (refinedTextOf env rr cs sp)
               (pyFind (refinedTextOf env rr cs sp) '[').toNat
               ((pyRfind (refinedTextOf env rr cs sp) ']').toNat + 1)) = none) :
    refineSpeeches env rr cs sp = sp
  ∧ runPipeline env rr nc st
      = { raw_results := rr, comments := cs, speeches := sp,
          voice_entries := synthesize env sp st.voice_entries } := by
  have h1 : refineSpeeches env rr cs sp = sp := by
    simp only [refineSpeeches]
    by_cases hspe : sp = []
    · rw [if_pos hspe]
    · rw [if_neg hspe]
      rcases hfail with hf | hf | hf
      · rw [if_neg]
        rw [hf]
        rintro ⟨h01, _⟩
        omega
      · rw [if_neg]
        rw [hf]
        rintro ⟨_, h01⟩
        omega
      · by_cases hcond : 0 ≤ pyFind (refinedTextOf env rr cs sp) '['
            ∧ 0 ≤ pyRfind (refinedTextOf env rr cs sp) ']'
        · rw [if_pos hcond, hf]
        · rw [if_neg hcond]
  subst hcs
  subst hsp
  refine ⟨h1, ?_⟩
  simp only [runPipeline]
  rw [h1]

/-- Witness for C5: a bracketless refinement response leaves the single
existing speech entry untouched and synthesis still runs on it. -/
theorem claim_C5_witness :
    runPipeline envC5 [] [] stC5
      = { raw_results := [], comments := [],
          speeches := [{ timestamp := 1, text := "x" }],
          voice_entries := synthesize envC5 [{ timestamp := 1, text := "x" }] [] } :=
  (claim_C5 envC5 stC5 [] [] [] [{ timestamp := 1, text := "x" }] rfl rfl
    (Or.inl (by with_unfolding_all decide))).2

/-- C9: the generator processes exactly the YES decisions whose
timestamp has no pre-existing speech entry, in decision order; the
pre-existing entries are preserved as a prefix, the `i`-th generated
entry is conditioned on everything generated before it (all pre-existing
entries plus the earlier entries of the same batch), and with no YES
decision the speech sequence is unchanged. -/
theorem claim_C9 (env : Env) (rr : List FrameAnalysis) (comments : List Decision)
    (speeches : List Speech) :
    commentsToProcess comments speeches
      = comments.filter (fun c => decide (c.commentate = "YES"
          ∧ c.timestamp ∉ speeches.map fun s => s.timestamp))
  ∧ (genSpeeches env rr (commentsToProcess comments speeches) speeches).take speeches.length
      = speeches
  ∧ (genSpeeches env rr (commentsToProcess comments speeches) speeches).length
      = speeches.length + (commentsToProcess comments speeches).length
  ∧ (∀ (i : ℕ) (c : Decision), (commentsToProcess comments speeches)[i]? = some c →
      (genSpeeches env rr (commentsToProcess comments speeches) speeches)[speeches.length + i]?
        = some { timestamp := c.timestamp,
                 text := env.speechResp
                   ((genSpeeches env rr (commentsToProcess comments speeches) speeches).take
                     (speeches.length + i)) rr c.timestamp })
  ∧ ((∀ c ∈ comments, c.commentate ≠ "YES")
      → genSpeeches env rr (commentsToProcess comments speeches) speeches = speeches) := by
  refine ⟨rfl, ?_, ?_, ?_, ?_⟩
  · rw [genSpeeches_eq_genBatch, List.take_left]
  · rw [genSpeeches_eq_genBatch]
    simp [genBatch_length]
  · intro i c h
    rw [genSpeeches_eq_genBatch]
    rw [show (speeches ++ genBatch env rr speeches (commentsToProcess comments speeches)).take
          (speeches.length + i)
        = speeches ++ (genBatch env rr speeches (commentsToProcess comments speeches)).take i by
      simp [List.take_append]]
    exact genBatch_get env rr (commentsToProcess comments speeches) speeches i c h
  · intro hno
    have hempty : commentsToProcess comments speeches = [] := by
      show comments.filter _ = []
      rw [List.filter_eq_nil_iff]
      intro c hc
      simp only [Bool.not_eq_true, decide_eq_false_iff_not, not_and]
      intro hyes
      exact absurd hyes (hno c hc)
    rw [hempty]
    rfl

/-- Witness for C9: one YES decision at a fresh timestamp generates one
speech entry, conditioned on the (empty) prior history. -/
theorem claim_C9_witness :
    (genSpeeches envC9 [] (commentsToProcess [decA] []) [])[([] : List Speech).length + 0]?
      = some { timestamp := decA.timestamp,
               text := envC9.speechResp
                 ((genSpeeches envC9 [] (commentsToProcess [decA] []) []).take
                   (([] : List Speech).length + 0)) [] decA.timestamp } :=
  (claim_C9 envC9 [] [decA] []).2.2.2.1 0 decA (by with_unfolding_all decide)

/-- C10: a successfully parsed refinement response replaces the speech
sequence wholesale — whatever array the parse produced, with no
validation against the previous entries — and the synthesis phase is
then driven entirely by the replaced entries. -/
theorem claim_C10 (env : Env) (rr : List FrameAnalysis) (comments : List Decision)
    (speeches refined : List Speech) (voice : List VoiceEntry)
    (hne : speeches ≠ [])
    (hs : 0 ≤ pyFind (refinedTextOf env rr comments speeches) '[')
    (he : 0 ≤ pyRfind (refinedTextOf env rr comments speeches) ']')
    (hparse : env.jsonLoadsSpeeches (pySlice (refinedTextOf env rr comments speeches)
        (pyFind (refinedTextOf env rr comments speeches) '[').toNat
        ((pyRfind (refinedTextOf env rr comments speeches) ']').toNat + 1)) = some refined) :
    refineSpeeches env rr comments speeches = refined
  ∧ synthesize env (refineSpeeches env rr comments speeches) voice
      = voice ++ (refined.filter fun s => !(coveredBy voice s)).map (mkVoice env) := by
  have h1 : refineSpeeches env rr comments speeches = refined := by
    simp only [refineSpeeches]
    rw [if_neg hne, if_pos ⟨hs, he⟩, hparse]
  refine ⟨h1, ?_⟩
  rw [h1, synthesize_eq]

/-- Witness for C10: a refinement response parsing to the empty array
replaces the one existing speech entry with nothing — no validation
prevents the drop. -/
theorem claim_C10_witness :
    refineSpeeches envC10 [] [] [{ timestamp := 1, text := "x" }] = [] :=
  (claim_C10 envC10 [] [] [{ timestamp := 1, text := "x" }] [] []
    (by with_unfolding_all decide)
    (by with_unfolding_all decide)
    (by with_unfolding_all decide)
    (by with_unfolding_all decide)).1

theorem analyze_video_fatal (env : Env) (is t : ℚ) (dur : Option ℚ) (st : Stores)
    (hlt : t < env.full_duration)
    (hb : pyFind (classifyTextOf env (st.raw_results ++ chunkResults env is t dur)) '[' = -1
        ∨ pyRfind (classifyTextOf env (st.raw_results ++ chunkResults env is t dur)) ']' = -1) :
    analyze_video env is t dur st
      = RunResult.fatal
          ("Failed to parse commentation JSON from LLM response:\n"
            ++ (classifyTextOf env (st.raw_results ++ chunkResults env is t dur)).asString)
          { raw_results := st.raw_results ++ chunkResults env is t dur,
            comments := st.comments, speeches := st.speeches,
            voice_entries := st.voice_entries } := by
  simp only [analyze_video]
  rw [if_neg (not_le.mpr hlt), if_pos hb]

theorem analyze_video_ok (env : Env) (is t : ℚ) (dur : Option ℚ) (st : Stores)
    (hlt : t < env.full_duration) (nc : List Decision)
    (hb1 : pyFind (classifyTextOf env (st.raw_results ++ chunkResults env is t dur)) '[' ≠ -1)
    (hb2 : pyRfind (classifyTextOf env (st.raw_results ++ chunkResults env is t dur)) ']' ≠ -1)
    (hparse : env.jsonLoadsDecisions (pySlice
        (classifyTextOf env (st.raw_results ++ chunkResults env is t dur))
        (pyFind (classifyTextOf env (st.raw_results ++ chunkResults env is t dur)) '[').toNat
        ((pyRfind (classifyTextOf env (st.raw_results ++ chunkResults env is t dur)) ']').toNat
          + 1)) = some nc) :
    analyze_video env is t dur st
      = RunResult.ok (st.raw_results ++ chunkResults env is t dur)
          (runPipeline env (st.raw_results ++ chunkResults env is t dur) nc
            { raw_results := st.raw_results ++ chunkResults env is t dur,
              comments := st.comments, speeches := st.speeches,
              voice_entries := st.voice_entries }) := by
  simp only [analyze_video]
  rw [if_neg (not_le.mpr hlt), if_neg (not_or.mpr ⟨hb1, hb2⟩), hparse]

/-- C6: when `start_time` is inside the video, the classifier response
is parsed by slicing from the first `[` to the last `]`; if either
bracket is absent the invocation fails fatally with the parse error and
the decision, speech and manifest stores keep their loaded values (no
merge, generation, refinement or synthesis happens); with both brackets
present and a successful parse, the invocation proceeds through the
remaining phases on the parsed array. -/
theorem claim_C6 (env : Env) (is t : ℚ) (dur : Option ℚ) (st : Stores)
    (hlt : t < env.full_duration) :
    (pyFind (classifyTextOf env (st.raw_results ++ chunkResults env is t dur)) '[' = -1
      ∨ pyRfind (classifyTextOf env (st.raw_results ++ chunkResults env is t dur)) ']' = -1 →
      analyze_video env is t dur st
        = RunResult.fatal
            ("Failed to parse commentation JSON from LLM response:\n"
              ++ (classifyTextOf env (st.raw_results ++ chunkResults env is t dur)).asString)
            { raw_results := st.raw_results ++ chunkResults env is t dur,
              comments := st.comments, speeches := st.speeches,
              voice_entries := st.voice_entries })
  ∧ (∀ nc : List Decision,
      pyFind (classifyTextOf env (st.raw_results ++ chunkResults env is t dur)) '[' ≠ -1 →
      pyRfind (classifyTextOf env (st.raw_results ++ chunkResults env is t dur)) ']' ≠ -1 →
      env.jsonLoadsDecisions (pySlice
          (classifyTextOf env (st.raw_results ++ chunkResults env is t dur))
          (pyFind (classifyTextOf env (st.raw_results ++ chunkResults env is t dur)) '[').toNat
          ((pyRfind (classifyTextOf env (st.raw_results ++ chunkResults env is t dur)) ']').toNat
            + 1)) = some nc →
      analyze_video env is t dur st
        = RunResult.ok (st.raw_results ++ chunkResults env is t dur)
            (runPipeline env (st.raw_results ++ chunkResults env is t dur) nc
              { raw_results := st.raw_results ++ chunkResults env is t dur,
                comments := st.comments, speeches := st.speeches,
                voice_entries := st.voice_entries })) :=
  ⟨fun hb => analyze_video_fatal env is t dur st hlt hb,
   fun nc hb1 hb2 hp => analyze_video_ok env is t dur st hlt nc hb1 hb2 hp⟩

/-- Witness for C6: a bracket-free classifier response makes the run
fail fatally with the loaded decision/speech/manifest stores intact. -/
theorem claim_C6_witness :
    analyze_video envC6 1 0 none stEmpty
      = RunResult.fatal
          ("Failed to parse commentation JSON from LLM response:\n"
            ++ (classifyTextOf envC6 (stEmpty.raw_results ++ chunkResults envC6 1 0 none)).asString)
          { raw_results := stEmpty.raw_results ++ chunkResults envC6 1 0 none,
            comments := stEmpty.comments, speeches := stEmpty.speeches,
            voice_entries := stEmpty.voice_entries } :=
  (claim_C6 envC6 1 0 none stEmpty (by with_unfolding_all decide)).1
    (Or.inl (by with_unfolding_all decide))

/-- Counterexample to C1 as stated: with one analysis record already
persisted, the invocation returns the loaded record followed by the new
chunk record — not just the chunk's newly produced records. -/
theorem claim_C1_counterexample :
    retOf (analyze_video envC1 1 0 (some 1) stC1)
      = some (stC1.raw_results ++ chunkResults envC1 1 0 (some 1))
  ∧ stC1.raw_results ++ chunkResults envC1 1 0 (some 1) ≠ chunkResults envC1 1 0 (some 1) := by
  with_unfolding_all decide

/-- C1 (amended): a successful invocation with `start_time` inside the
video returns the cumulative analysis sequence — the persisted records
followed by the chunk's newly produced records — while the analysis,
decision and manifest stores grow by appending and the speech store is
the refinement of the cumulatively generated speech sequence. -/
theorem claim_C1 (env : Env) (is t : ℚ) (dur : Option ℚ) (st : Stores) (nc : List Decision)
    (hlt : t < env.full_duration)
    (hb1 : pyFind (classifyTextOf env (st.raw_results ++ chunkResults env is t dur)) '[' ≠ -1)
    (hb2 : pyRfind (classifyTextOf env (st.raw_results ++ chunkResults env is t dur)) ']' ≠ -1)
    (hparse : env.jsonLoadsDecisions (pySlice
        (classifyTextOf env (st.raw_results ++ chunkResults env is t dur))
        (pyFind (classifyTextOf env (st.raw_results ++ chunkResults env is t dur)) '[').toNat
        ((pyRfind (classifyTextOf env (st.raw_results ++ chunkResults env is t dur)) ']').toNat
          + 1)) = some nc) :
    ∃ st' : Stores,
      analyze_video env is t dur st
        = RunResult.ok (st.raw_results ++ chunkResults env is t dur) st'
      ∧ st'.raw_results = st.raw_results ++ chunkResults env is t dur
      ∧ (∃ newDecs, st'.comments = st.comments ++ newDecs)
      ∧ (∃ newVoice, st'.voice_entries = st.voice_entries ++ newVoice)
      ∧ st'.speeches = refineSpeeches env (st.raw_results ++ chunkResults env is t dur)
          st'.comments
          (genSpeeches env (st.raw_results ++ chunkResults env is t dur)
            (commentsToProcess st'.comments st.speeches) st.speeches) := by
  refine ⟨runPipeline env (st.raw_results ++ chunkResults env is t dur) nc
      { raw_results := st.raw_results ++ chunkResults env is t dur,
        comments := st.comments, speeches := st.speeches,
        voice_entries := st.voice_entries },
    analyze_video_ok env is t dur st hlt nc hb1 hb2 hparse, rfl, ?_, ?_, rfl⟩
  · exact ⟨_, mergeComments_eq st.comments nc⟩
  · exact ⟨_, synthesize_eq env _ st.voice_entries⟩

/-- Witness for C1 (amended): the concrete run of the counterexample
environment satisfies the amended description. -/
theorem claim_C1_witness :
    ∃ st' : Stores,
      analyze_video envC1 1 0 (some 1) stC1
        = RunResult.ok (stC1.raw_results ++ chunkResults envC1 1 0 (some 1)) st'
      ∧ st'.raw_results = stC1.raw_results ++ chunkResults envC1 1 0 (some 1)
      ∧ (∃ newDecs, st'.comments = stC1.comments ++ newDecs)
      ∧ (∃ newVoice, st'.voice_entries = stC1.voice_entries ++ newVoice)
      ∧ st'.speeches = refineSpeeches envC1 (stC1.raw_results ++ chunkResults envC1 1 0 (some 1))
          st'.comments
          (genSpeeches envC1 (stC1.raw_results ++ chunkResults envC1 1 0 (some 1))
            (commentsToProcess st'.comments stC1.speeches) stC1.speeches) :=
  claim_C1 envC1 1 0 (some 1) stC1 []
    (by with_unfolding_all decide)
    (by with_unfolding_all decide)
    (by with_unfolding_all decide)
    (by with_unfolding_all decide)
